import Mathlib

/-!
Shallow embedding of the command-side worker of `rustic-dendrite`
(`src/axon_utils/command_worker.rs` and `src/axon_utils/handler_registry.rs`).

Modelling conventions, applied uniformly:
* Rust `HashMap<String, V>` becomes an association list `List (String × V)`
  with `lookupHM` / `insertHM` / `containsKeyHM` mirroring `get` / `insert` /
  `contains_key` (`insert` replaces an existing entry, as `HashMap::insert`
  does).  Where the source iterates a `HashMap`, the model iterates the list;
  `HashMap` iteration order is unspecified, so order-independent facts are the
  ones that carry over.
* Byte buffers (`Vec<u8>`, `Bytes`) become `List Nat`.
* `anyhow::Result<T>` becomes `Except String T`; error messages follow the
  `anyhow!` format strings, with `rustDebug` standing in for the `{:?}`
  formatting of a string (which adds quotes).
* `Uuid::new_v4()` draws are modelled by an abstract supply `uuids : Nat → String`
  together with an explicitly threaded draw index.
* Interior mutability (`Arc<Mutex<LruCache>>`, `Arc<async_lock::Mutex<AggregateContext>>`)
  becomes explicit state passing: functions take and return the cache / context.
  The LRU eviction of the cache (capacity 1024) is not modelled; no claim
  depends on eviction, only on lookup and insertion.
* `async` is erased; every handler is a plain function.
-/

/-- Debug (`{:?}`) formatting of a Rust `String`: the text surrounded by quotes. -/
def rustDebug (s : String) : String := "\"" ++ s ++ "\""

/-- Lookup in an association list, mirroring `HashMap::get`. -/
def lookupHM {A : Type} : List (String × A) → String → Option A
  | [], _ => none
  | (k, v) :: rest, key => if k = key then some v else lookupHM rest key

/-- Insert into an association list, mirroring `HashMap::insert`:
an existing entry for the key is replaced, otherwise the pair is appended. -/
def insertHM {A : Type} : List (String × A) → String → A → List (String × A)
  | [], key, value => [(key, value)]
  | (k, v) :: rest, key, value =>
    if k = key then (key, value) :: rest else (k, v) :: insertHM rest key value

/-- Key membership, mirroring `HashMap::contains_key`. -/
def containsKeyHM {A : Type} (m : List (String × A)) (key : String) : Bool :=
  (lookupHM m key).isSome

/-- Is an `Except` value an `ok`? -/
def exceptIsOk {E A : Type} : Except E A → Bool
  | .ok _ => true
  | .error _ => false

/-- Wire message `SerializedObject { type, revision, data }`.
The Rust field is spelled `r#type`; it is named `rtype` here. -/
structure SerializedObject where
  rtype : String
  revision : String
  data : List Nat
  deriving Repr, DecidableEq

/-- Wire message `Event` (the fields used by the worker; `meta_data` is an
association list standing in for `HashMap<String, String>`). -/
structure Event where
  message_identifier : String
  timestamp : Int
  aggregate_identifier : String
  aggregate_sequence_number : Int
  aggregate_type : String
  payload : Option SerializedObject
  meta_data : List (String × String)
  snapshot : Bool
  deriving Repr, DecidableEq

/-- Wire message `Command` (the fields the worker reads). -/
structure Command where
  message_identifier : String
  name : String
  payload : Option SerializedObject
  meta_data : List (String × String)
  deriving Repr, DecidableEq

/-- Wire message `ErrorMessage`. -/
structure ErrorMessage where
  message : String
  location : String
  details : List String
  error_code : String
  deriving Repr, DecidableEq

/-- Wire message `FlowControl`. -/
structure FlowControl where
  client_id : String
  permits : Int
  deriving Repr, DecidableEq

/-- Wire message `CommandSubscription`. -/
structure CommandSubscription where
  message_id : String
  command : String
  client_id : String
  component_name : String
  load_factor : Int
  deriving Repr, DecidableEq

/-- Wire message `CommandResponse` (`processing_instructions` elements are
irrelevant to the worker and modelled as `Unit`). -/
structure CommandResponse where
  message_identifier : String
  request_identifier : String
  payload : Option SerializedObject
  error_code : String
  error_message : Option ErrorMessage
  meta_data : List (String × String)
  processing_instructions : List Unit
  deriving Repr, DecidableEq

/-- The `command_provider_outbound::Request` enum: the three outbound payloads. -/
inductive OutboundRequest where
  | subscribe (s : CommandSubscription)
  | flowControl (f : FlowControl)
  | commandResponse (r : CommandResponse)
  deriving Repr, DecidableEq

/-- Wire message `CommandProviderOutbound { instruction_id, request }`. -/
structure CommandProviderOutbound where
  instruction_id : String
  request : Option OutboundRequest
  deriving Repr, DecidableEq

/-- `AxonServerHandle`: the identifying fields (the transport connection is
out of scope). -/
structure AxonServerHandle where
  client_id : String
  display_name : String

/-- `EmitEventsAndResponse`: a command handler's wrapped result. -/
structure EmitEventsAndResponse where
  events : List SerializedObject
  response : Option SerializedObject
  deriving Repr, DecidableEq

/-- `AxonCommandResult`: the item sent from the inbound loop to the outbound
stream generator. -/
structure AxonCommandResult where
  message_identifier : String
  result : Except String (Option EmitEventsAndResponse)

/-- The event-store client, at the interface the worker uses:
`query_events_from_client` (a server-streaming read, here a function from
aggregate id to the event list or a transport error) and `append_event`
(whose success or failure is the `appendOk` flag; the batch is atomic). -/
structure EventStoreClient where
  queryEvents : String → Except String (List Event)
  appendOk : Bool

/-- An erased subscription handle (`Box<dyn SubscriptionHandle<P, W>>`):
a name plus the composed decode-invoke-wrap function
(`handle(buf, projection) -> Result<Option<W>>`). -/
structure SubscriptionHandle (P W : Type) where
  name : String
  handle : List Nat → P → Except String (Option W)

/-- `TheHandlerRegistry<P, W>`: the handler map. -/
structure TheHandlerRegistry (P W : Type) where
  handlers : List (String × SubscriptionHandle P W)

/-- `TheHandlerRegistry::get`. -/
def TheHandlerRegistry.get {P W : Type} (reg : TheHandlerRegistry P W)
    (name : String) : Option (SubscriptionHandle P W) :=
  lookupHM reg.handlers name

/-- The `SubscriptionVoid` handle: decode, invoke a handler returning `()`,
always produce `Ok(None)` (handler_registry.rs lines 234-238). -/
def subscriptionVoidHandle {P W T : Type}
    (name : String)
    (deserializer : List Nat → Except String T)
    (handler : T → P → Except String Unit) : SubscriptionHandle P W :=
  { name := name
    handle := fun buf projection =>
      match deserializer buf with
      | .error e => .error e
      | .ok message =>
        match handler message projection with
        | .error e => .error e
        | .ok () => .ok none }

/-- The `Subscription` handle: decode, invoke, and if the handler produced a
value and a wrapper is present, wrap it; otherwise `Ok(None)`
(handler_registry.rs lines 204-212). -/
def subscriptionHandle {P W T R : Type}
    (name : String)
    (deserializer : List Nat → Except String T)
    (handler : T → P → Except String (Option R))
    (wrapper : Option (String × (String → R → Except String W))) :
    SubscriptionHandle P W :=
  { name := name
    handle := fun buf projection =>
      match deserializer buf with
      | .error e => .error e
      | .ok message =>
        match handler message projection with
        | .error e => .error e
        | .ok (some result) =>
          match wrapper with
          | some (type_name, convert) =>
            match convert type_name result with
            | .error e => .error e
            | .ok w => .ok (some w)
          | none => .ok none
        | .ok none => .ok none }

/-- `TheHandlerRegistry::insert` (handler_registry.rs lines 68-86).  The Rust
method mutates `&mut self` and returns `Result<()>`; the model returns the
result together with the (possibly unchanged) registry. -/
def TheHandlerRegistry.insert {P W T : Type} (reg : TheHandlerRegistry P W)
    (name : String)
    (deserializer : List Nat → Except String T)
    (handler : T → P → Except String Unit) :
    Except String Unit × TheHandlerRegistry P W :=
  let key := name
  let handle : SubscriptionHandle P W := subscriptionVoidHandle name deserializer handler
  if containsKeyHM reg.handlers key then
    (.error ("Handler already registered: " ++ rustDebug key), reg)
  else
    (.ok (), { handlers := insertHM reg.handlers key handle })

/-- `TheHandlerRegistry::insert_ignoring_output` (lines 88-108). -/
def TheHandlerRegistry.insert_ignoring_output {P W T R : Type}
    (reg : TheHandlerRegistry P W)
    (name : String)
    (deserializer : List Nat → Except String T)
    (handler : T → P → Except String (Option R)) :
    Except String Unit × TheHandlerRegistry P W :=
  let key := name
  let handle : SubscriptionHandle P W := subscriptionHandle name deserializer handler none
  if containsKeyHM reg.handlers key then
    (.error ("Handler already registered: " ++ rustDebug key), reg)
  else
    (.ok (), { handlers := insertHM reg.handlers key handle })

/-- `TheHandlerRegistry::insert_with_output` (lines 110-133): the wrapper is
the identity conversion carrying type name `"UNKNOWN"`. -/
def TheHandlerRegistry.insert_with_output {P W T : Type}
    (reg : TheHandlerRegistry P W)
    (name : String)
    (deserializer : List Nat → Except String T)
    (handler : T → P → Except String (Option W)) :
    Except String Unit × TheHandlerRegistry P W :=
  let key := name
  let handle : SubscriptionHandle P W :=
    subscriptionHandle name deserializer handler
      (some ("UNKNOWN", fun _ r => .ok r))
  if containsKeyHM reg.handlers key then
    (.error ("Handler already registered: " ++ rustDebug key), reg)
  else
    (.ok (), { handlers := insertHM reg.handlers key handle })

/-- `TheHandlerRegistry::insert_with_mapped_output` (lines 135-160). -/
def TheHandlerRegistry.insert_with_mapped_output {P W T R : Type}
    (reg : TheHandlerRegistry P W)
    (name : String)
    (deserializer : List Nat → Except String T)
    (handler : T → P → Except String (Option R))
    (type_name : String)
    (wrapper : String → R → Except String W) :
    Except String Unit × TheHandlerRegistry P W :=
  let key := name
  let handle : SubscriptionHandle P W :=
    subscriptionHandle name deserializer handler (some (type_name, wrapper))
  if containsKeyHM reg.handlers key then
    (.error ("Handler already registered: " ++ rustDebug key), reg)
  else
    (.ok (), { handlers := insertHM reg.handlers key handle })

/-- An erased aggregate handle (`Arc<dyn AggregateHandle>`): `name()`,
`command_names()`, and `handle(command, client)`.  The effects of `handle`
on the event store and the projection cache are hidden behind the erasure,
exactly as the trait object hides them; only the returned result is visible
to the stream driver. -/
structure AggregateHandle where
  name : String
  command_names : List String
  handle : Command → Except String (Option EmitEventsAndResponse)

/-- `TheAggregateRegistry { handlers: HashMap<String, Arc<dyn AggregateHandle>> }`. -/
structure TheAggregateRegistry where
  handlers : List (String × AggregateHandle)

/-- `TheAggregateRegistry::get` (command_worker.rs lines 223-225). -/
def TheAggregateRegistry.get (reg : TheAggregateRegistry) (name : String) :
    Option AggregateHandle :=
  lookupHM reg.handlers name

/-- `TheAggregateRegistry::insert` (command_worker.rs lines 217-221): insert
under `aggregate_handle.name()` and return `Ok(())` unconditionally. -/
def TheAggregateRegistry.insert (reg : TheAggregateRegistry)
    (aggregate_handle : AggregateHandle) :
    Except String Unit × TheAggregateRegistry :=
  (.ok (), { handlers := insertHM reg.handlers aggregate_handle.name aggregate_handle })

/-- Inner loop of `register_commands`: for one aggregate, push each command
name onto the list and insert the command-to-aggregate mapping entry
(command_worker.rs lines 234-238). -/
def registerAggregateCommands (aggregate_name : String) :
    List String → List String × List (String × String) →
    List String × List (String × String)
  | [], acc => acc
  | command_name :: rest, acc =>
    registerAggregateCommands aggregate_name rest
      (acc.1 ++ [command_name], insertHM acc.2 command_name aggregate_name)

/-- `TheAggregateRegistry::register_commands` (command_worker.rs lines
227-241): fold over all registered aggregates, collecting every command name
and the command-to-aggregate mapping.  The Rust code iterates a `HashMap`
(unspecified order); the model iterates the association list. -/
def registerCommandsGo :
    List (String × AggregateHandle) →
    List String × List (String × String) →
    List String × List (String × String)
  | [], acc => acc
  | (aggregate_name, aggregate_handle) :: rest, acc =>
    registerCommandsGo rest
      (registerAggregateCommands aggregate_name aggregate_handle.command_names acc)

/-- `TheAggregateRegistry::register_commands` (command_worker.rs lines
227-241), packaged: fold `registerCommandsGo` over the registry's handlers. -/
def register_commands (reg : TheAggregateRegistry)
    (commands : List String)
    (command_to_aggregate_mapping : List (String × String)) :
    List String × List (String × String) :=
  registerCommandsGo reg.handlers (commands, command_to_aggregate_mapping)

/-- The projection cache of one aggregate definition:
`LruCache<String, (i64, P)>` as an association list from aggregate id to
`(sequence number, projection)`.  LRU eviction (capacity 1024) is not
modelled. -/
abbrev Cache (P : Type) : Type := List (String × (Int × P))

/-- Cache lookup (`LruCache::get`). -/
def cacheGet {P : Type} (cache : Cache P) (key : String) : Option (Int × P) :=
  lookupHM cache key

/-- Cache insertion (`LruCache::put`). -/
def cachePut {P : Type} (cache : Cache P) (key : String) (value : Int × P) :
    Cache P :=
  insertHM cache key value

/-- The per-command scratch space `AggregateContext<P>` (command_worker.rs
lines 55-63).  The `aggregate_definition` and `event_store_client` fields are
not stored here; the model passes them explicitly to `get_projection`, which
is the only place they are read.  Emitted events are kept as
`(type name, encoded bytes)` pairs: the only uses of a
`Box<dyn ApplicableTo<P>>` are cloning and `encode_u8`. -/
structure AggregateContext (P : Type) where
  events : List (String × List Nat)
  aggregate_id : Option String
  projection : P
  seq : Int

/-- `AggregateContext::emit` (command_worker.rs lines 69-72): append the
event to the pending list; never fails. -/
def AggregateContext.emit {P : Type} (ctx : AggregateContext P)
    (event_type : String) (event : List Nat) : AggregateContext P :=
  { ctx with events := ctx.events ++ [(event_type, event)] }

/-- A command handler as stored in the command-handler registry of an
aggregate definition.  In the source this is a
`SubscriptionHandle<Arc<async_lock::Mutex<AggregateContext<P>>>, SerializedObject>`:
the handler receives the shared mutable context (through which it may call
`emit` and `get_projection`, the latter also touching the cache and the event
store).  The shared mutation is modelled by explicit state passing: the
handler maps the payload bytes, the context and the cache to a result plus
the updated context, with the cache threaded outside the `Except` because
mutations made through the `Arc<Mutex>` survive an error return. -/
def CommandHandler (P : Type) : Type :=
  List Nat → AggregateContext P → EventStoreClient → Cache P →
    Except String (Option SerializedObject × AggregateContext P) × Cache P

/-- `AggregateDefinition<P>` (command_worker.rs lines 291-298).  The cache is
interior-mutable in the source (`Arc<Mutex<LruCache>>`); the model passes the
cache state explicitly alongside the definition. -/
structure AggregateDefinition (P : Type) where
  projection_name : String
  empty_projection : P
  command_handler_registry : List (String × CommandHandler P)
  sourcing_handler_registry : TheHandlerRegistry P P

/-- Lines 75-85 of command_worker.rs.  If `aggregate_id` is already set and
differs from the argument, the source builds an error value with `anyhow!`
but never returns it (there is no `return` and no `?`), so the branch has no
effect; if `aggregate_id` is unset it is set to the argument. -/
def resolveAggregateId {P : Type} (ctx : AggregateContext P)
    (aggregate_id : String) : AggregateContext P :=
  match ctx.aggregate_id with
  | some _ => ctx
  | none => { ctx with aggregate_id := some aggregate_id }

/-- The replay loop of `get_projection` (command_worker.rs lines 102-118):
fold the queried events, in list order, through the sourcing-handler
registry.  An event with a payload whose type has no registered handler
aborts with the `Missing sourcing handler` error; an event without payload is
skipped; after each event the context's `seq` is set to that event's
`aggregate_sequence_number`. -/
def replayEvents {P : Type} (reg : TheHandlerRegistry P P) :
    List Event → P → Int → Except String (P × Int)
  | [], projection, seq => .ok (projection, seq)
  | event :: rest, projection, _seq =>
    match event.payload with
    | some payload =>
      match reg.get payload.rtype with
      | none => .error ("Missing sourcing handler for " ++ rustDebug payload.rtype)
      | some sourcing_handler =>
        match sourcing_handler.handle payload.data projection with
        | .error e => .error e
        | .ok (some p) => replayEvents reg rest p event.aggregate_sequence_number
        | .ok none => replayEvents reg rest projection event.aggregate_sequence_number
    | none => replayEvents reg rest projection event.aggregate_sequence_number

/-- `AggregateContext::get_projection` (command_worker.rs lines 73-135).
Steps: the (ineffective) consistency check and id assignment
(`resolveAggregateId`); the cache lookup under the lock, copying `(seq, P)`
into the context on a hit; if `seq` is still negative, query the event store,
replay the events, and — when the restored `seq` is non-negative — insert the
result into the cache; finally return a clone of the projection.  The cache
is threaded outside the `Except`, mirroring the shared `Arc<Mutex>`. -/
def get_projection {P : Type} (defn : AggregateDefinition P)
    (store : EventStoreClient) (ctx : AggregateContext P) (cache : Cache P)
    (aggregate_id : String) :
    Except String (P × AggregateContext P) × Cache P :=
  let ctx := resolveAggregateId ctx aggregate_id
  let ctx : AggregateContext P :=
    match cacheGet cache aggregate_id with
    | some (s, p) => { ctx with projection := p, seq := s }
    | none => ctx
  if ctx.seq < 0 then
    match store.queryEvents aggregate_id with
    | .error e => (.error e, cache)
    | .ok events =>
      match replayEvents defn.sourcing_handler_registry events ctx.projection ctx.seq with
      | .error e => (.error e, cache)
      | .ok (p, s) =>
        let ctx := { ctx with projection := p, seq := s }
        let cache :=
          if 0 ≤ ctx.seq then cachePut cache aggregate_id (ctx.seq, ctx.projection)
          else cache
        (.ok (ctx.projection, ctx), cache)
  else
    (.ok (ctx.projection, ctx), cache)

/-- The freshly created context of `internal_handle_command`
(command_worker.rs lines 386-394): no events, no aggregate id, the empty
projection, `seq = -1`. -/
def initialContext {P : Type} (defn : AggregateDefinition P) : AggregateContext P :=
  { events := [], aggregate_id := none, projection := defn.empty_projection, seq := -1 }

/-- The post-handler apply loop of `internal_handle_command`
(command_worker.rs lines 402-425): run each newly emitted event through its
sourcing handler.  When the handler produces an updated projection, the
context's `seq` becomes `next_seq` and `next_seq` is incremented; when it
produces `None`, neither changes.  Returns
`(projection, seq, next_seq)`. -/
def applyNewEvents {P : Type} (reg : TheHandlerRegistry P P) :
    List (String × List Nat) → P → Int → Int → Except String (P × Int × Int)
  | [], projection, seq, next_seq => .ok (projection, seq, next_seq)
  | (type_name, data) :: rest, projection, seq, next_seq =>
    match reg.get type_name with
    | none => .error ("Missing sourcing handler for " ++ rustDebug type_name)
    | some sourcing_handler =>
      match sourcing_handler.handle data projection with
      | .error e => .error e
      | .ok (some p) => applyNewEvents reg rest p next_seq (next_seq + 1)
      | .ok none => applyNewEvents reg rest projection seq next_seq

/-- `internal_handle_command` (command_worker.rs lines 371-449): create the
initial context, run the command handler, and — when the handler set an
aggregate id — apply the newly emitted events to the projection, updating
the cache when at least one event was applied
(`next_seq > last_stored_seq + 1`).  Returns the handler's result, the
cloned emitted events, the aggregate id and `last_stored_seq`; the cache is
threaded outside the `Except`. -/
def internal_handle_command {P : Type} (defn : AggregateDefinition P)
    (command_handler : CommandHandler P) (data : List Nat)
    (store : EventStoreClient) (cache : Cache P) :
    Except String
      (Option SerializedObject × List (String × List Nat) × Option String × Int)
    × Cache P :=
  let ctx0 := initialContext defn
  match command_handler data ctx0 store cache with
  | (.error e, cache) => (.error e, cache)
  | (.ok (result, ctx), cache) =>
    let last_stored_seq := ctx.seq
    match ctx.aggregate_id with
    | none => (.ok (result, ctx.events, none, last_stored_seq), cache)
    | some aggregate_id =>
      match applyNewEvents defn.sourcing_handler_registry ctx.events ctx.projection
          last_stored_seq (last_stored_seq + 1) with
      | .error e => (.error e, cache)
      | .ok (p, s, next_seq) =>
        let cache :=
          if next_seq > last_stored_seq + 1 then cachePut cache aggregate_id (s, p)
          else cache
        (.ok (result, ctx.events, some aggregate_id, last_stored_seq), cache)

/-- `get_command_handler` (command_worker.rs lines 461-473): a registry
lookup (the source wraps the option in `Ok`; the model returns the option). -/
def get_command_handler {P : Type} (command_name : String)
    (defn : AggregateDefinition P) : Option (CommandHandler P) :=
  lookupHM defn.command_handler_registry command_name

/-- `encode_event_with_timestamp` (command_worker.rs lines 689-715): build the
wire `Event` for one emitted `(type name, encoded bytes)` pair.  The
`message_identifier` is a fresh UUID, passed in here. -/
def encode_event_with_timestamp (uuid : String) (e : String × List Nat)
    (aggregate_name aggregate_id : String) (timestamp next_seq : Int) : Event :=
  { message_identifier := uuid
    timestamp := timestamp
    aggregate_identifier := aggregate_id
    aggregate_sequence_number := next_seq
    aggregate_type := aggregate_name
    payload := some { rtype := e.1, revision := "", data := e.2 }
    meta_data := []
    snapshot := false }

/-- The event messages built by `store_events` (command_worker.rs lines
659-666): one `Event` per emitted pair, each drawing a fresh UUID (here: one
supply index per event).  The closure passed to `map` captures `next_seq` by
value and never increments it, so every message of the batch carries the
same `aggregate_sequence_number`. -/
def store_events_messages (uuids : Nat → String)
    (aggregate_name aggregate_id : String) :
    List (String × List Nat) → Int → Int → Nat → List Event
  | [], _, _, _ => []
  | e :: rest, timestamp, next_seq, k =>
    encode_event_with_timestamp (uuids k) e aggregate_name aggregate_id
        timestamp next_seq
      :: store_events_messages uuids aggregate_name aggregate_id rest
        timestamp next_seq (k + 1)

/-- The observable outcome of `handle_command`: the returned result, the
final cache state, and the batch of events actually persisted by the event
store (`[]` when nothing was appended or the append was rejected — the
append is atomic). -/
structure CommandOutcome (P : Type) where
  result : Except String (Option EmitEventsAndResponse)
  cache : Cache P
  appended : List Event

/-- `handle_command` (command_worker.rs lines 338-369): look up the command
handler (`Missing command handler` if absent), extract the payload data
(`No payload data` if absent), run `internal_handle_command`, and if events
were emitted, require the aggregate id (`Missing aggregate id` if unset) and
persist the batch via `store_events` at `last_stored_seq + 1`. -/
def handle_command {P : Type} (uuids : Nat → String)
    (defn : AggregateDefinition P) (command : Command)
    (store : EventStoreClient) (cache : Cache P) (timestamp : Int) :
    CommandOutcome P :=
  match get_command_handler command.name defn with
  | none =>
    { result := .error ("Missing command handler: " ++ rustDebug command.name)
      cache := cache, appended := [] }
  | some command_handler =>
    match command.payload with
    | none =>
      { result := .error ("No payload data for: " ++ rustDebug command.name)
        cache := cache, appended := [] }
    | some payload =>
      match internal_handle_command defn command_handler payload.data store cache with
      | (.error e, cache) => { result := .error e, cache := cache, appended := [] }
      | (.ok (result, events, aggregate_id, seq), cache) =>
        if events.isEmpty then
          { result := .ok (some { events := [], response := result })
            cache := cache, appended := [] }
        else
          match aggregate_id with
          | none => { result := .error "Missing aggregate id", cache := cache, appended := [] }
          | some aid =>
            let event_messages :=
              store_events_messages uuids defn.projection_name aid events timestamp
                (seq + 1) 0
            if store.appendOk then
              { result := .ok (some { events := [], response := result })
                cache := cache, appended := event_messages }
            else
              { result := .error "append_event failed", cache := cache, appended := [] }

/-- The permit batch size of the flow-control credit scheme
(command_worker.rs line 582: `let permits_batch_size: i64 = 3`). -/
def permits_batch_size : Int := 3

/-- The subscription prelude of `create_output_stream` (command_worker.rs
lines 562-580): one `Subscribe` instruction per registered command name.
Each iteration draws two UUIDs: the subscription's `message_id` and the
instruction id. -/
def subscribeInstructions (uuids : Nat → String)
    (client_id component_name : String) :
    List String → Nat → List CommandProviderOutbound
  | [], _ => []
  | command_name :: rest, k =>
    { instruction_id := uuids (k + 1)
      request := some (.subscribe
        { message_id := uuids k
          command := command_name
          client_id := client_id
          component_name := component_name
          load_factor := 100 }) }
      :: subscribeInstructions uuids client_id component_name rest (k + 2)

/-- One `CommandResponse` instruction of the outbound loop (command_worker.rs
lines 597-627): a fresh response id, the `request_identifier` taken from the
`AxonCommandResult`, the payload filled in on success, the `"ERROR"` code and
message filled in on failure.  Draws two UUIDs: the response id and the
instruction id. -/
def buildCommandResponse (uuids : Nat → String) (k : Nat)
    (axon_command_result : AxonCommandResult) : CommandProviderOutbound :=
  let base : CommandResponse :=
    { message_identifier := uuids k
      request_identifier := axon_command_result.message_identifier
      payload := none
      error_code := ""
      error_message := none
      meta_data := []
      processing_instructions := [] }
  let response : CommandResponse :=
    match axon_command_result.result with
    | .ok result => { base with payload := result.bind (fun r => r.response) }
    | .error e =>
      { base with
          error_code := "ERROR"
          error_message := some
            { message := e, location := "", details := [], error_code := "ERROR" } }
  { instruction_id := uuids (k + 1), request := some (.commandResponse response) }

/-- A `FlowControl` instruction. -/
def flowControlInstruction (uuid : String) (client_id : String) (permits : Int) :
    CommandProviderOutbound :=
  { instruction_id := uuid
    request := some (.flowControl { client_id := client_id, permits := permits }) }

/-- The response loop of `create_output_stream` (command_worker.rs lines
596-644): for each received `AxonCommandResult`, yield its `CommandResponse`,
decrement the permit counter by one, and when the counter has fallen to
`permits_batch_size` or below, yield a `FlowControl` for another batch and
add the batch to the counter. -/
def responseLoop (uuids : Nat → String) (client_id : String) :
    List AxonCommandResult → Int → Nat → List CommandProviderOutbound
  | [], _, _ => []
  | axon_command_result :: rest, permits, k =>
    let response := buildCommandResponse uuids k axon_command_result
    let permits := permits - 1
    if permits ≤ permits_batch_size then
      response
        :: flowControlInstruction (uuids (k + 2)) client_id permits_batch_size
        :: responseLoop uuids client_id rest (permits + permits_batch_size) (k + 3)
    else
      response :: responseLoop uuids client_id rest permits (k + 2)

/-- `create_output_stream` (command_worker.rs lines 553-648), as the list of
messages the generated stream yields for a given list of received
`AxonCommandResult`s: the subscription prelude, the initial `FlowControl`
with `permits_batch_size * 2` permits, then the response loop starting from
that permit balance. -/
def create_output_stream (uuids : Nat → String)
    (axon_server_handle : AxonServerHandle) (command_box : List String)
    (rx : List AxonCommandResult) : List CommandProviderOutbound :=
  let client_id := axon_server_handle.client_id
  let component_name := axon_server_handle.display_name
  let subs := subscribeInstructions uuids client_id component_name command_box 0
  let k := 2 * command_box.length
  subs
    ++ flowControlInstruction (uuids k) client_id (permits_batch_size * 2)
    :: responseLoop uuids client_id rx (permits_batch_size * 2) (k + 1)

/-- Reference schedule for the response loop, written from the observable
consequence of the credit scheme (batch size 3, initial grant 6, decrement
one per response, top-up when the balance is less than or equal to the batch
size): a `FlowControl` for one batch follows every third response, counting
responses from `n + 1`. -/
def topUpSchedule (uuids : Nat → String) (client_id : String) :
    List AxonCommandResult → Nat → Nat → List CommandProviderOutbound
  | [], _, _ => []
  | axon_command_result :: rest, n, k =>
    let response := buildCommandResponse uuids k axon_command_result
    if (n + 1) % 3 = 0 then
      response
        :: flowControlInstruction (uuids (k + 2)) client_id 3
        :: topUpSchedule uuids client_id rest (n + 1) (k + 3)
    else
      response :: topUpSchedule uuids client_id rest (n + 1) (k + 2)

/-- The inbound messages of the worker loop (command_worker.rs lines
515-550): a delivered command (`Ok(Some(..Command(c)))`), any other
non-error message (`Ok(None)`, or an inbound without a command — both logged
and skipped), or a transport error, which terminates the worker. -/
inductive InboundMessage where
  | command (c : Command)
  | other
  | transportError (e : String)

/-- Handling of one inbound command by the worker loop (command_worker.rs
lines 519-539): the result starts as the `Could not find aggregate handler`
error and is replaced only when both the command-to-aggregate mapping and
the registry lookup succeed, in which case the aggregate handles the
command.  Exactly one `AxonCommandResult`, carrying the command's
`message_identifier`, is produced. -/
def processCommand (command_to_aggregate_mapping : List (String × String))
    (registry : TheAggregateRegistry) (command : Command) : AxonCommandResult :=
  let result : Except String (Option EmitEventsAndResponse) :=
    match lookupHM command_to_aggregate_mapping command.name with
    | none => .error "Could not find aggregate handler"
    | some aggregate_name =>
      match registry.get aggregate_name with
      | none => .error "Could not find aggregate handler"
      | some aggregate_definition => aggregate_definition.handle command
  { message_identifier := command.message_identifier, result := result }

/-- The queue of `AxonCommandResult`s produced by the worker's inbound loop
(command_worker.rs lines 515-550): one item per delivered command, in
arrival order; non-command messages are skipped; a transport error ends the
loop. -/
def command_worker_results (command_to_aggregate_mapping : List (String × String))
    (registry : TheAggregateRegistry) :
    List InboundMessage → List AxonCommandResult
  | [] => []
  | .command c :: rest =>
    processCommand command_to_aggregate_mapping registry c
      :: command_worker_results command_to_aggregate_mapping registry rest
  | .other :: rest => command_worker_results command_to_aggregate_mapping registry rest
  | .transportError _ :: _ => []

/-- The commands the worker actually receives: the command messages in the
inbound prefix before the first transport error. -/
def commandsIn : List InboundMessage → List Command
  | [] => []
  | .command c :: rest => c :: commandsIn rest
  | .other :: rest => commandsIn rest
  | .transportError _ :: _ => []

/-- The `CommandResponse`s among a list of outbound messages. -/
def responsesIn : List CommandProviderOutbound → List CommandResponse
  | [] => []
  | m :: rest =>
    match m.request with
    | some (.commandResponse r) => r :: responsesIn rest
    | _ => responsesIn rest

/-- The outbound stream of `command_worker` (command_worker.rs lines
492-551): collect the command names and the command-to-aggregate mapping
from the registry with `register_commands`, then generate the output stream
from the results the inbound loop feeds through the channel. -/
def command_worker_outbound (uuids : Nat → String)
    (axon_server_handle : AxonServerHandle) (registry : TheAggregateRegistry)
    (inbound : List InboundMessage) : List CommandProviderOutbound :=
  let pair := register_commands registry [] []
  create_output_stream uuids axon_server_handle pair.1
    (command_worker_results pair.2 registry inbound)

/-- A concrete UUID supply for witnesses and counterexamples. -/
def exUuids : Nat → String := fun n => "uuid-" ++ toString n

/-- A concrete sourcing-handler registry over integer projections: the
`GreetedEvent` handler increments the projection. -/
def exSourcingRegistry : TheHandlerRegistry Int Int :=
  ⟨[("GreetedEvent",
     { name := "GreetedEvent", handle := fun _ p => .ok (some (p + 1)) })]⟩

/-- A concrete command handler that emits one `GreetedEvent` and sets the
aggregate id to `g-1` (as a handler that called `get_projection "g-1"` on an
empty history and then `emit` would). -/
def exCommandHandler : CommandHandler Int :=
  fun _ ctx _ cache =>
    (.ok (none,
      { ctx with events := [("GreetedEvent", [])], aggregate_id := some "g-1" }),
     cache)

/-- A concrete command handler that emits one `GreetedEvent` but never sets
the aggregate id (it never calls `get_projection`). -/
def exCommandHandlerNoId : CommandHandler Int :=
  fun _ ctx _ cache =>
    (.ok (none, { ctx with events := [("GreetedEvent", [])] }), cache)

/-- A concrete aggregate definition over integer projections. -/
def exAggregateDefinition : AggregateDefinition Int :=
  { projection_name := "Greeting"
    empty_projection := 0
    command_handler_registry := [("GreetCommand", exCommandHandler)]
    sourcing_handler_registry := exSourcingRegistry }

/-- The aggregate definition whose `GreetCommand` handler never sets the
aggregate id. -/
def exAggregateDefinitionNoId : AggregateDefinition Int :=
  { projection_name := "Greeting"
    empty_projection := 0
    command_handler_registry := [("GreetCommand", exCommandHandlerNoId)]
    sourcing_handler_registry := exSourcingRegistry }

/-- A concrete `GreetCommand`. -/
def exCommand : Command :=
  { message_identifier := "msg-1"
    name := "GreetCommand"
    payload := some { rtype := "GreetCommand", revision := "", data := [] }
    meta_data := [] }

/-- A command whose name is registered nowhere. -/
def exUnknownCommand : Command :=
  { message_identifier := "msg-2", name := "UnknownCommand"
    payload := none, meta_data := [] }

/-- An event store with an empty history whose append is rejected. -/
def exFailingStore : EventStoreClient :=
  { queryEvents := fun _ => .ok [], appendOk := false }

/-- An event store with an empty history whose append succeeds. -/
def exQuietStore : EventStoreClient :=
  { queryEvents := fun _ => .ok [], appendOk := true }

/-- Persisted event number 0 of aggregate `g-1`. -/
def exEvent0 : Event :=
  { message_identifier := "ev-0", timestamp := 0
    aggregate_identifier := "g-1", aggregate_sequence_number := 0
    aggregate_type := "Greeting"
    payload := some { rtype := "GreetedEvent", revision := "", data := [] }
    meta_data := [], snapshot := false }

/-- Persisted event number 1 of aggregate `g-1`. -/
def exEvent1 : Event :=
  { exEvent0 with message_identifier := "ev-1", aggregate_sequence_number := 1 }

/-- An event store holding two events for aggregate `g-1`. -/
def exHistoryStore : EventStoreClient :=
  { queryEvents := fun aggregate_id =>
      if aggregate_id = "g-1" then .ok [exEvent0, exEvent1] else .ok []
    appendOk := true }

/-- A freshly created context (what `internal_handle_command` builds). -/
def exFreshContext : AggregateContext Int :=
  { events := [], aggregate_id := none, projection := 0, seq := -1 }

/-- A context whose aggregate id is already resolved to `a`. -/
def exContextA : AggregateContext Int :=
  { events := [], aggregate_id := some "a", projection := 0, seq := -1 }

/-- A cache holding a projection for aggregate `b` only. -/
def exCacheB : Cache Int := [("b", ((5 : Int), (42 : Int)))]

/-- An aggregate handle for the `Greeting` aggregate. -/
def exGreetingHandle : AggregateHandle :=
  { name := "Greeting", command_names := ["GreetCommand"]
    handle := fun _ => .ok none }

/-- Two aggregate handles sharing the name `Agg`. -/
def exHandleAgg1 : AggregateHandle :=
  { name := "Agg", command_names := ["CmdOne"], handle := fun _ => .ok none }

/-- The second handle named `Agg`. -/
def exHandleAgg2 : AggregateHandle :=
  { name := "Agg", command_names := ["CmdTwo"], handle := fun _ => .ok none }

/-- Aggregate `A` declaring command `Cmd`. -/
def exHandleCmdA : AggregateHandle :=
  { name := "A", command_names := ["Cmd"], handle := fun _ => .ok none }

/-- Aggregate `B` also declaring command `Cmd`. -/
def exHandleCmdB : AggregateHandle :=
  { name := "B", command_names := ["Cmd"], handle := fun _ => .ok none }

/-- A registry holding two aggregates that declare the same command name. -/
def exDupRegistry : TheAggregateRegistry :=
  ⟨[("A", exHandleCmdA), ("B", exHandleCmdB)]⟩

/-- A registry holding the `Greeting` aggregate. -/
def exWorkerRegistry : TheAggregateRegistry := ⟨[("Greeting", exGreetingHandle)]⟩

/-- A concrete server handle. -/
def exServerHandle : AxonServerHandle :=
  { client_id := "client-1", display_name := "component-1" }

/-- A concrete inbound sequence: a known command, a skipped message, an
unknown command. -/
def exInbound : List InboundMessage :=
  [.command exCommand, .other, .command exUnknownCommand]

/-- A deserializer for the handler-registry witnesses. -/
def exDeser9 : List Nat → Except String Nat := fun _ => .ok 0

/-- A void handler for the handler-registry witnesses. -/
def exVoid9 : Nat → Nat → Except String Unit := fun _ _ => .ok ()

/-- A handler with optional output for the handler-registry witnesses. -/
def exOpt9 : Nat → Nat → Except String (Option Nat) := fun _ _ => .ok none

/-- A handler producing the wrapped type for the handler-registry witnesses. -/
def exOptW9 : Nat → Nat → Except String (Option Nat) := fun _ _ => .ok none

/-- A wrapper for the handler-registry witnesses. -/
def exWrap9 : String → Nat → Except String Nat := fun _ r => .ok r

/-- A handler registry already holding an entry named `x`. -/
def exReg9 : TheHandlerRegistry Nat Nat :=
  ⟨[("x", subscriptionVoidHandle "x" exDeser9 exVoid9)]⟩

/-- Looking up the key just inserted yields the inserted value. -/
lemma lookupHM_insertHM_self {A : Type} :
    ∀ (m : List (String × A)) (key : String) (value : A),
      lookupHM (insertHM m key value) key = some value := by
  intro m key value
  induction m with
  | nil => simp [insertHM, lookupHM]
  | cons p rest ih =>
    by_cases h : p.1 = key
    · simp [insertHM, lookupHM, h]
    · simp [insertHM, lookupHM, h, ih]

/-- C10: `TheAggregateRegistry::insert` always returns `Ok`, and inserting a
second handle with the same aggregate name silently replaces the first one:
the later registration wins. -/
theorem aggregate_registry_insert_replaces (reg : TheAggregateRegistry)
    (h1 h2 : AggregateHandle) (hname : h1.name = h2.name) :
    (reg.insert h1).1 = .ok ()
    ∧ ((reg.insert h1).2.insert h2).1 = .ok ()
    ∧ ((reg.insert h1).2.insert h2).2.get h1.name = some h2 := by
  refine ⟨rfl, rfl, ?_⟩
  simp only [TheAggregateRegistry.insert, TheAggregateRegistry.get, hname]
  exact lookupHM_insertHM_self _ _ _

/-- Witness for C10 at two concrete handles named `Agg`. -/
theorem aggregate_registry_insert_replaces_witness :
    (TheAggregateRegistry.insert ⟨[]⟩ exHandleAgg1).1 = .ok ()
    ∧ ((TheAggregateRegistry.insert ⟨[]⟩ exHandleAgg1).2.insert exHandleAgg2).1 = .ok ()
    ∧ ((TheAggregateRegistry.insert ⟨[]⟩ exHandleAgg1).2.insert exHandleAgg2).2.get "Agg"
        = some exHandleAgg2 :=
  aggregate_registry_insert_replaces ⟨[]⟩ exHandleAgg1 exHandleAgg2 rfl

/-- C9: each of the four insert operations of `TheHandlerRegistry` fails with
the `Handler already registered` error exactly when the name is already
present, and on failure the registry is returned unchanged; when the name is
absent, each returns `Ok`. -/
theorem handler_registry_insert_already_registered {P W T R : Type}
    (reg : TheHandlerRegistry P W) (name : String)
    (d : List Nat → Except String T)
    (hv : T → P → Except String Unit)
    (hr : T → P → Except String (Option R))
    (hw : T → P → Except String (Option W))
    (type_name : String)
    (wrapper : String → R → Except String W) :
    (containsKeyHM reg.handlers name = true →
        reg.insert name d hv
            = (.error ("Handler already registered: " ++ rustDebug name), reg)
        ∧ reg.insert_ignoring_output name d hr
            = (.error ("Handler already registered: " ++ rustDebug name), reg)
        ∧ reg.insert_with_output name d hw
            = (.error ("Handler already registered: " ++ rustDebug name), reg)
        ∧ reg.insert_with_mapped_output name d hr type_name wrapper
            = (.error ("Handler already registered: " ++ rustDebug name), reg))
    ∧ (containsKeyHM reg.handlers name = false →
        (reg.insert name d hv).1 = .ok ()
        ∧ (reg.insert_ignoring_output name d hr).1 = .ok ()
        ∧ (reg.insert_with_output name d hw).1 = .ok ()
        ∧ (reg.insert_with_mapped_output name d hr type_name wrapper).1 = .ok ()) := by
  constructor
  · intro h
    refine ⟨?_, ?_, ?_, ?_⟩ <;>
      simp [TheHandlerRegistry.insert, TheHandlerRegistry.insert_ignoring_output,
        TheHandlerRegistry.insert_with_output,
        TheHandlerRegistry.insert_with_mapped_output, h]
  · intro h
    refine ⟨?_, ?_, ?_, ?_⟩ <;>
      simp [TheHandlerRegistry.insert, TheHandlerRegistry.insert_ignoring_output,
        TheHandlerRegistry.insert_with_output,
        TheHandlerRegistry.insert_with_mapped_output, h]

/-- Witness for C9: inserting under the taken name `x` fails and leaves the
registry unchanged; inserting under the fresh name `y` succeeds. -/
theorem handler_registry_insert_already_registered_witness :
    (exReg9.insert "x" exDeser9 exVoid9).1
        = .error ("Handler already registered: " ++ rustDebug "x")
    ∧ (exReg9.insert "x" exDeser9 exVoid9).2 = exReg9
    ∧ (exReg9.insert_with_mapped_output "x" exDeser9 exOpt9 "T" exWrap9).2 = exReg9
    ∧ (exReg9.insert "y" exDeser9 exVoid9).1 = .ok ()
    ∧ (exReg9.insert_with_output "y" exDeser9 exOptW9).1 = .ok () := by
  have hdup := (handler_registry_insert_already_registered exReg9 "x" exDeser9
    exVoid9 exOpt9 exOptW9 "T" exWrap9).1 (by rfl)
  have hfree := (handler_registry_insert_already_registered exReg9 "y" exDeser9
    exVoid9 exOpt9 exOptW9 "T" exWrap9).2 (by rfl)
  refine ⟨?_, ?_, ?_, hfree.1, hfree.2.2.1⟩
  · rw [hdup.1]
  · rw [hdup.1]
  · rw [hdup.2.2.2]

/-- C4 counterexample: with aggregates `A` and `B` both declaring command
`Cmd`, `register_commands` returns the duplicated list `["Cmd", "Cmd"]` —
no `ConflictingCommand` error is possible (the function cannot fail) and the
mapping silently keeps one of the aggregates. -/
theorem register_commands_duplicate_counterexample :
    (register_commands exDupRegistry [] []).1 = ["Cmd", "Cmd"]
    ∧ ¬ (register_commands exDupRegistry [] []).1.Nodup := by
  refine ⟨rfl, ?_⟩
  rw [show (register_commands exDupRegistry [] []).1 = ["Cmd", "Cmd"] from rfl]
  decide

/-- C4 amended: `register_commands` concatenates every registered aggregate's
command names onto the output list with no duplicate detection whatsoever,
so a command name declared by several aggregates appears once per declaring
aggregate. -/
theorem register_commands_concatenates_command_names (reg : TheAggregateRegistry)
    (commands : List String) (mapping : List (String × String)) :
    (register_commands reg commands mapping).1
      = commands ++ (reg.handlers.map (fun p => p.2.command_names)).flatten := by
  have inner : ∀ (an : String) (cns : List String)
      (acc : List String × List (String × String)),
      (registerAggregateCommands an cns acc).1 = acc.1 ++ cns := by
    intro an cns
    induction cns with
    | nil => intro acc; simp [registerAggregateCommands]
    | cons cn rest ih =>
      intro acc
      rw [registerAggregateCommands, ih]
      simp
  have outer : ∀ (hs : List (String × AggregateHandle))
      (acc : List String × List (String × String)),
      (registerCommandsGo hs acc).1
        = acc.1 ++ (hs.map (fun p => p.2.command_names)).flatten := by
    intro hs
    induction hs with
    | nil => intro acc; simp [registerCommandsGo]
    | cons h rest ih =>
      intro acc
      rw [registerCommandsGo, ih, inner]
      simp
  exact outer reg.handlers (commands, mapping)

/-- C1: the event messages that `store_events` sends all carry the same
`aggregate_sequence_number` — the `next_seq` argument — because the mapping
closure never increments it; in particular a two-event batch at
`last_stored_seq + 1 = 5` is persisted as sequences `[5, 5]`, not `[5, 6]`. -/
theorem store_events_assigns_constant_sequence_numbers
    (uuids : Nat → String) (aggregate_name aggregate_id : String)
    (events : List (String × List Nat)) (timestamp next_seq : Int) (k : Nat) :
    (store_events_messages uuids aggregate_name aggregate_id events
        timestamp next_seq k).map (fun ev => ev.aggregate_sequence_number)
      = events.map (fun _ => next_seq)
    ∧ (store_events_messages exUuids "Greeting" "g-1"
          [("GreetedEvent", []), ("OtherEvent", [])] 0 5 0).map
        (fun ev => ev.aggregate_sequence_number) = [5, 5] := by
  constructor
  · induction events generalizing k with
    | nil => rfl
    | cons e rest ih =>
      simp [store_events_messages, encode_event_with_timestamp, ih]
  · rfl

/-- C2: when the handler applied one event to aggregate `g-1` (updating the
cache from empty to `(0, 1)`) and the subsequent event-store append is
rejected, `handle_command` fails — but the cache keeps the post-command
entry: there is no rollback to the pre-command value (the empty cache). -/
theorem persist_failure_leaves_updated_cache :
    (handle_command exUuids exAggregateDefinition exCommand exFailingStore [] 0).result
        = .error "append_event failed"
    ∧ (handle_command exUuids exAggregateDefinition exCommand exFailingStore [] 0).cache
        = [("g-1", ((0 : Int), (1 : Int)))]
    ∧ (handle_command exUuids exAggregateDefinition exCommand exFailingStore [] 0).cache
        ≠ ([] : Cache Int) := by
  refine ⟨rfl, rfl, ?_⟩
  rw [show (handle_command exUuids exAggregateDefinition exCommand exFailingStore
      [] 0).cache = [("g-1", ((0 : Int), (1 : Int)))] from rfl]
  exact List.cons_ne_nil _ _

/-- C3: calling `get_projection "b"` on a context whose aggregate id is
already set to `a` does not return the `Inconsistent aggregate_id` error —
the source constructs that error but never returns it — and instead proceeds
to look up aggregate `b`, returning `b`'s cached projection while
`aggregate_id` stays `a`. -/
theorem get_projection_ignores_inconsistent_aggregate_id :
    get_projection exAggregateDefinition exQuietStore exContextA exCacheB "b"
      = (.ok ((42 : Int),
          { events := [], aggregate_id := some "a", projection := 42, seq := 5 }),
         exCacheB) := rfl

/-- C8: when the command handler emitted at least one event but never set the
context's aggregate id, `handle_command` fails with the
`Missing aggregate id` error and nothing is persisted (the appended batch is
empty; `store_events` is never reached). -/
theorem handle_command_missing_aggregate_id {P : Type} (uuids : Nat → String)
    (defn : AggregateDefinition P) (command : Command) (store : EventStoreClient)
    (cache cache1 : Cache P) (timestamp : Int)
    (command_handler : CommandHandler P) (payload : SerializedObject)
    (result1 : Option SerializedObject) (ctx1 : AggregateContext P)
    (hreg : get_command_handler command.name defn = some command_handler)
    (hpayload : command.payload = some payload)
    (hrun : command_handler payload.data (initialContext defn) store cache
        = (.ok (result1, ctx1), cache1))
    (hev : ctx1.events ≠ [])
    (hid : ctx1.aggregate_id = none) :
    handle_command uuids defn command store cache timestamp
      = { result := .error "Missing aggregate id", cache := cache1, appended := [] } := by
  simp only [handle_command, hreg, hpayload, internal_handle_command, hrun, hid]
  cases hE : ctx1.events with
  | nil => exact absurd hE hev
  | cons a l => simp [hE]

/-- Witness for C8: the `GreetCommand` handler that emits `GreetedEvent` but
never resolves an aggregate id makes `handle_command` fail with
`Missing aggregate id` and persist nothing. -/
theorem handle_command_missing_aggregate_id_witness :
    handle_command exUuids exAggregateDefinitionNoId exCommand exQuietStore [] 0
      = { result := .error "Missing aggregate id", cache := [], appended := [] } := by
  exact handle_command_missing_aggregate_id exUuids exAggregateDefinitionNoId
    exCommand exQuietStore [] [] 0 exCommandHandlerNoId
    { rtype := "GreetCommand", revision := "", data := [] } none
    { events := [("GreetedEvent", [])], aggregate_id := none, projection := 0, seq := -1 }
    rfl rfl rfl (by simp) rfl

/-- Resolving the aggregate id leaves the projection unchanged. -/
@[simp] lemma resolveAggregateId_projection {P : Type} (ctx : AggregateContext P)
    (aggregate_id : String) :
    (resolveAggregateId ctx aggregate_id).projection = ctx.projection := by
  cases h : ctx.aggregate_id <;> simp [resolveAggregateId, h]

/-- Resolving the aggregate id leaves the sequence number unchanged. -/
@[simp] lemma resolveAggregateId_seq {P : Type} (ctx : AggregateContext P)
    (aggregate_id : String) :
    (resolveAggregateId ctx aggregate_id).seq = ctx.seq := by
  cases h : ctx.aggregate_id <;> simp [resolveAggregateId, h]

/-- Resolving the aggregate id leaves the pending events unchanged. -/
@[simp] lemma resolveAggregateId_events {P : Type} (ctx : AggregateContext P)
    (aggregate_id : String) :
    (resolveAggregateId ctx aggregate_id).events = ctx.events := by
  cases h : ctx.aggregate_id <;> simp [resolveAggregateId, h]

/-- A successful replay of a nonempty event list continues as a replay of the
tail from some intermediate projection, with the context sequence set to the
head event's sequence number. -/
lemma replayEvents_cons_ok {P : Type} (reg : TheHandlerRegistry P P)
    (ev : Event) (rest : List Event) (p0 : P) (s0 : Int) (p : P) (s : Int)
    (h : replayEvents reg (ev :: rest) p0 s0 = .ok (p, s)) :
    ∃ p1, replayEvents reg rest p1 ev.aggregate_sequence_number = .ok (p, s) := by
  simp only [replayEvents] at h
  cases hpl : ev.payload with
  | none =>
    simp only [hpl] at h
    exact ⟨p0, h⟩
  | some payload =>
    simp only [hpl] at h
    cases hg : reg.get payload.rtype with
    | none => simp [hg] at h
    | some sourcing_handler =>
      simp only [hg] at h
      cases hh : sourcing_handler.handle payload.data p0 with
      | error e => simp [hh] at h
      | ok o =>
        simp only [hh] at h
        cases o with
        | none => exact ⟨p0, h⟩
        | some p1 => exact ⟨p1, h⟩

/-- A successful replay of a nonempty event list ends with the context
sequence equal to some replayed event's sequence number. -/
lemma replayEvents_ok_seq_mem {P : Type} (reg : TheHandlerRegistry P P) :
    ∀ (rest : List Event) (ev : Event) (p0 : P) (s0 : Int) (p : P) (s : Int),
      replayEvents reg (ev :: rest) p0 s0 = .ok (p, s) →
      ∃ e, e ∈ ev :: rest ∧ s = e.aggregate_sequence_number := by
  intro rest
  induction rest with
  | nil =>
    intro ev p0 s0 p s h
    obtain ⟨p1, h1⟩ := replayEvents_cons_ok reg ev [] p0 s0 p s h
    simp only [replayEvents] at h1
    cases h1
    exact ⟨ev, by simp⟩
  | cons ev2 rest2 ih =>
    intro ev p0 s0 p s h
    obtain ⟨p1, h1⟩ := replayEvents_cons_ok reg ev (ev2 :: rest2) p0 s0 p s h
    obtain ⟨e, he, hs⟩ := ih ev2 p1 ev.aggregate_sequence_number p s h1
    exact ⟨e, by simp only [List.mem_cons] at he ⊢; tauto, hs⟩

/-- C7: on a cache miss (`seq < 0` after the lookup), `get_projection`
queries the aggregate's event stream and folds it through the
sourcing-handler registry in the returned order (`replayEvents`): a replay
error — in particular the `Missing sourcing handler` error for a payload
type with no registered handler — is returned as is with the cache
untouched, and on success the cache is updated with the restored
`(seq, projection)` exactly when at least one event was observed (given
that server-returned sequence numbers are non-negative). -/
theorem get_projection_cache_miss {P : Type} (defn : AggregateDefinition P)
    (store : EventStoreClient) (ctx : AggregateContext P) (cache : Cache P)
    (aggregate_id : String) (events : List Event)
    (hq : store.queryEvents aggregate_id = .ok events)
    (hmiss : lookupHM cache aggregate_id = none)
    (hseq : ctx.seq < 0)
    (hpos : ∀ ev, ev ∈ events → 0 ≤ ev.aggregate_sequence_number) :
    (∀ err, replayEvents defn.sourcing_handler_registry events ctx.projection ctx.seq
          = .error err →
        get_projection defn store ctx cache aggregate_id = (.error err, cache))
    ∧ (∀ p s, replayEvents defn.sourcing_handler_registry events ctx.projection ctx.seq
          = .ok (p, s) →
        get_projection defn store ctx cache aggregate_id
          = (.ok (p, { resolveAggregateId ctx aggregate_id with projection := p, seq := s }),
             if events.isEmpty then cache else cachePut cache aggregate_id (s, p)))
    ∧ (∀ ev rest payload, events = ev :: rest → ev.payload = some payload →
        defn.sourcing_handler_registry.get payload.rtype = none →
        get_projection defn store ctx cache aggregate_id
          = (.error ("Missing sourcing handler for " ++ rustDebug payload.rtype), cache)) := by
  have herr : ∀ err,
      replayEvents defn.sourcing_handler_registry events ctx.projection ctx.seq
        = .error err →
      get_projection defn store ctx cache aggregate_id = (.error err, cache) := by
    intro err hre
    simp only [get_projection, cacheGet, hmiss, resolveAggregateId_seq, hseq,
      if_pos, hq, resolveAggregateId_projection, hre]
  refine ⟨herr, ?_, ?_⟩
  · intro p s hre
    simp only [get_projection, cacheGet, hmiss, resolveAggregateId_seq, hseq,
      if_pos, hq, resolveAggregateId_projection, hre]
    cases hE : events with
    | nil =>
      rw [hE] at hre
      simp only [replayEvents] at hre
      cases hre
      simp only [List.isEmpty_nil, if_pos]
      rw [if_neg (by omega)]
    | cons ev rest =>
      rw [hE] at hre
      obtain ⟨e, he, hs⟩ := replayEvents_ok_seq_mem defn.sourcing_handler_registry
        rest ev ctx.projection ctx.seq p s hre
      have h0 : (0 : Int) ≤ s := by
        rw [hs]; exact hpos e (hE ▸ he)
      simp only [List.isEmpty_cons, if_neg]
      rw [if_pos h0]
      simp
  · intro ev rest payload hE hpl hg
    apply herr
    rw [hE]
    simp only [replayEvents, hpl, hg]

/-- Witness for C7: a fresh context, an empty cache and a two-event history
for `g-1` replay to projection `2` at sequence `1`, and the cache is filled
with that pair. -/
theorem get_projection_cache_miss_witness :
    get_projection exAggregateDefinition exHistoryStore exFreshContext [] "g-1"
      = (.ok ((2 : Int),
          { events := [], aggregate_id := some "g-1", projection := 2, seq := 1 }),
         [("g-1", ((1 : Int), (2 : Int)))]) := by
  have h := (get_projection_cache_miss exAggregateDefinition exHistoryStore
    exFreshContext [] "g-1" [exEvent0, exEvent1] rfl rfl (by decide)
    (by decide)).2.1 2 1 rfl
  exact h

/-- `responsesIn` distributes over list append. -/
lemma responsesIn_append (a b : List CommandProviderOutbound) :
    responsesIn (a ++ b) = responsesIn a ++ responsesIn b := by
  induction a with
  | nil => rfl
  | cons m rest ih =>
    simp only [List.cons_append, responsesIn]
    split <;> simp [ih]

/-- The subscription prelude contains no command responses. -/
lemma responsesIn_subscribe (uuids : Nat → String) (cid comp : String) :
    ∀ (cmds : List String) (k : Nat),
      responsesIn (subscribeInstructions uuids cid comp cmds k) = [] := by
  intro cmds
  induction cmds with
  | nil => intro k; rfl
  | cons c rest ih => intro k; simpa [subscribeInstructions, responsesIn] using ih (k + 2)

/-- The response loop emits exactly one `CommandResponse` per received
result, in order, each carrying the result's `message_identifier` as its
`request_identifier`. -/
lemma responsesIn_responseLoop (uuids : Nat → String) (cid : String) :
    ∀ (rs : List AxonCommandResult) (permits : Int) (k : Nat),
      (responsesIn (responseLoop uuids cid rs permits k)).map
          (fun r => r.request_identifier)
        = rs.map (fun a => a.message_identifier) := by
  intro rs
  induction rs with
  | nil => intro permits k; rfl
  | cons a rest ih =>
    intro permits k
    simp only [responseLoop]
    split
    · cases hr : a.result <;>
        simp [responsesIn, buildCommandResponse, flowControlInstruction, hr, ih]
    · cases hr : a.result <;>
        simp [responsesIn, buildCommandResponse, hr, ih]

/-- The inbound loop produces one `AxonCommandResult` per received command,
in order, carrying the command's `message_identifier`. -/
lemma command_worker_results_ids (mapping : List (String × String))
    (registry : TheAggregateRegistry) :
    ∀ inbound : List InboundMessage,
      (command_worker_results mapping registry inbound).map
          (fun a => a.message_identifier)
        = (commandsIn inbound).map (fun c => c.message_identifier) := by
  intro inbound
  induction inbound with
  | nil => rfl
  | cons m rest ih =>
    cases m <;> simp [command_worker_results, commandsIn, processCommand, ih]

/-- C6: the worker acknowledges every inbound command exactly once — the
`CommandResponse`s in the outbound stream correspond one to one, in order,
to the commands received before any transport error, each carrying the
command's `message_identifier` as its `request_identifier` — and a command
whose name is not in the command-to-aggregate mapping is answered with the
`Could not find aggregate handler` error. -/
theorem command_worker_ack_completeness (uuids : Nat → String)
    (axon_server_handle : AxonServerHandle) (registry : TheAggregateRegistry)
    (inbound : List InboundMessage) :
    (responsesIn (command_worker_outbound uuids axon_server_handle registry
          inbound)).map (fun r => r.request_identifier)
      = (commandsIn inbound).map (fun c => c.message_identifier)
    ∧ (∀ c : Command,
        lookupHM (register_commands registry [] []).2 c.name = none →
        (processCommand (register_commands registry [] []).2 registry c).result
          = .error "Could not find aggregate handler") := by
  constructor
  · simp only [command_worker_outbound, create_output_stream]
    rw [responsesIn_append]
    simp only [responsesIn_subscribe, flowControlInstruction, responsesIn,
      List.nil_append]
    rw [responsesIn_responseLoop, command_worker_results_ids]
  · intro c h
    simp [processCommand, h]

/-- Witness for C6: with the `Greeting` aggregate registered, the inbound
sequence "known command, skipped message, unknown command" yields exactly the
responses `["msg-1", "msg-2"]`, and the unknown command's result is the
`Could not find aggregate handler` error. -/
theorem command_worker_ack_completeness_witness :
    (responsesIn (command_worker_outbound exUuids exServerHandle exWorkerRegistry
          exInbound)).map (fun r => r.request_identifier) = ["msg-1", "msg-2"]
    ∧ (processCommand (register_commands exWorkerRegistry [] []).2 exWorkerRegistry
          exUnknownCommand).result = .error "Could not find aggregate handler" := by
  have h := command_worker_ack_completeness exUuids exServerHandle exWorkerRegistry
    exInbound
  refine ⟨h.1.trans ?_, h.2 exUnknownCommand (by rfl)⟩
  rfl

/-- The subscription prelude has one instruction per command name. -/
lemma subscribeInstructions_length (uuids : Nat → String) (cid comp : String) :
    ∀ (cmds : List String) (k : Nat),
      (subscribeInstructions uuids cid comp cmds k).length = cmds.length := by
  intro cmds
  induction cmds with
  | nil => intro k; rfl
  | cons c rest ih => intro k; simpa [subscribeInstructions] using ih (k + 2)

/-- The element right after a list prefix in an append. -/
lemma getElem?_append_cons {A : Type} (as : List A) (x : A) (bs : List A) :
    (as ++ x :: bs)[as.length]? = some x := by
  induction as with
  | nil => simp
  | cons a rest ih => simpa using ih

/-- The response loop, started with a permit balance of `6 - n % 3`, emits a
batch-size `FlowControl` exactly after every response whose one-based index
(counted from `n + 1`) is divisible by three: the balance falls by one per
response and is topped up by the batch exactly when it has reached the batch
size, that is on every third response. -/
lemma responseLoop_eq_topUpSchedule (uuids : Nat → String) (cid : String) :
    ∀ (rs : List AxonCommandResult) (n k : Nat),
      responseLoop uuids cid rs (6 - ((n % 3 : Nat) : Int)) k
        = topUpSchedule uuids cid rs n k := by
  intro rs
  induction rs with
  | nil => intro n k; rfl
  | cons a rest ih =>
    intro n k
    have h3 : n % 3 = 0 ∨ n % 3 = 1 ∨ n % 3 = 2 := by omega
    simp only [responseLoop, topUpSchedule, permits_batch_size]
    rcases h3 with h | h | h
    · rw [if_neg (by rw [h]; norm_num), if_neg (by omega)]
      have harg : (6 : Int) - ((n % 3 : Nat) : Int) - 1
          = 6 - (((n + 1) % 3 : Nat) : Int) := by
        have : (n + 1) % 3 = 1 := by omega
        rw [h, this]; norm_num
      rw [harg]
      exact congrArg _ (ih (n + 1) (k + 2))
    · rw [if_neg (by rw [h]; norm_num), if_neg (by omega)]
      have harg : (6 : Int) - ((n % 3 : Nat) : Int) - 1
          = 6 - (((n + 1) % 3 : Nat) : Int) := by
        have : (n + 1) % 3 = 2 := by omega
        rw [h, this]; norm_num
      rw [harg]
      exact congrArg _ (ih (n + 1) (k + 2))
    · rw [if_pos (by rw [h]; norm_num), if_pos (by omega)]
      have harg : (6 : Int) - ((n % 3 : Nat) : Int) - 1 + 3
          = 6 - (((n + 1) % 3 : Nat) : Int) := by
        have : (n + 1) % 3 = 0 := by omega
        rw [h, this]; norm_num
      rw [harg]
      exact congrArg _ (congrArg _ (ih (n + 1) (k + 3)))

/-- C5: the outbound stream's message right after the subscription prelude is
the initial `FlowControl` with `permits_batch_size * 2` permits, the batch
size is 3, and the response loop started from that balance follows the
top-up schedule: the permit counter falls by exactly one per emitted
`CommandResponse` and a `FlowControl` of one batch is emitted (and the
counter raised by the batch) exactly after every third response — the
consequence of topping up when the decremented balance is less than or
equal to the batch size, not strictly below it. -/
theorem create_output_stream_flow_control (uuids : Nat → String)
    (axon_server_handle : AxonServerHandle) (command_box : List String)
    (rx : List AxonCommandResult) :
    permits_batch_size = 3
    ∧ (create_output_stream uuids axon_server_handle command_box
          rx)[command_box.length]?
        = some (flowControlInstruction (uuids (2 * command_box.length))
            axon_server_handle.client_id (permits_batch_size * 2))
    ∧ responseLoop uuids axon_server_handle.client_id rx (permits_batch_size * 2)
          (2 * command_box.length + 1)
        = topUpSchedule uuids axon_server_handle.client_id rx 0
          (2 * command_box.length + 1) := by
  refine ⟨rfl, ?_, ?_⟩
  · simp only [create_output_stream]
    rw [show command_box.length
        = (subscribeInstructions uuids axon_server_handle.client_id
            axon_server_handle.display_name command_box 0).length
      from (subscribeInstructions_length uuids _ _ command_box 0).symm]
    exact getElem?_append_cons _ _ _
  · have h := responseLoop_eq_topUpSchedule uuids axon_server_handle.client_id rx 0
      (2 * command_box.length + 1)
    have h6 : permits_batch_size * 2 = 6 - ((0 % 3 : Nat) : Int) := by
      norm_num [permits_batch_size]
    rw [h6]
    exact h
